import Mathlib

/-!
Verification of the selector-synthesis core of the QA-Utility-Hub repository
(the `generateSelectors` routine of the XPath & CSS Selector Generator page,
together with its helpers `getXPathTo`, `escapeXpathText` and `escapeCssAttr`).

The source is embedded shallowly: a parsed HTML document is a tree of
elements and text nodes; an element occurrence is identified by its position
(index among its parent's child nodes) together with the chain of its
ancestors.  All string scanning is done over `List Char` so every definition
is executable by the kernel.
-/

/-- The single-quote character, written via its code point. -/
def squote : Char := Char.ofNat 39

/-- The double-quote character, written via its code point. -/
def dquote : Char := Char.ofNat 34

/-- The single-quote character as a string. -/
def squoteS : String := String.singleton squote

/-- The double-quote character as a string. -/
def dquoteS : String := String.singleton dquote

/-- Whitespace as matched by the JavaScript `\s` class and `String.trim`
(restricted to the ASCII whitespace characters that can occur here). -/
def jsWhitespace (c : Char) : Bool :=
  c == ' ' || c == '\t' || c == '\n' || c == '\r'

/-- Drop leading and trailing whitespace from a character list. -/
def trimChars (l : List Char) : List Char :=
  ((l.dropWhile jsWhitespace).reverse.dropWhile jsWhitespace).reverse

/-- Model of JavaScript `String.prototype.trim`. -/
def jsTrim (s : String) : String := ⟨trimChars s.data⟩

/-- Replace every maximal run of whitespace by a single space; the flag
records whether the previous character belonged to a whitespace run. -/
def collapseAux : Bool → List Char → List Char
  | _, [] => []
  | prevWs, c :: rest =>
    if jsWhitespace c then
      (if prevWs then [] else [' ']) ++ collapseAux true rest
    else c :: collapseAux false rest

/-- Model of JavaScript `s.replace(/\s+/g, " ")`. -/
def collapseWs (s : String) : String := ⟨collapseAux false s.data⟩

/-- Model of the source's `s.trim().replace(/\s+/g, " ")` normalisation. -/
def normWs (s : String) : String := collapseWs (jsTrim s)

/-- Model of JavaScript `toLowerCase` on tag names (ASCII letters). -/
def strLower (s : String) : String := ⟨s.data.map Char.toLower⟩

/-- The replacement the source substitutes for each single quote in the
`concat()` branch of `escapeXpathText`. -/
def spliceSeg : List Char := [squote, ',', dquote, squote, dquote, ',', squote]

/-- Model of `s.replace(/'/g, "',\"'\",'")` from `escapeXpathText`. -/
def xpSplice : List Char → List Char
  | [] => []
  | c :: rest => (if c == squote then spliceSeg else [c]) ++ xpSplice rest

/-- Split a character list on a separating character (every occurrence of the
separator ends a segment). -/
def splitOnChar (c : Char) : List Char → List (List Char)
  | [] => [[]]
  | x :: rest =>
    if x == c then [] :: splitOnChar c rest
    else
      match splitOnChar c rest with
      | [] => [[x]]
      | seg :: segs => (x :: seg) :: segs

/-- The source helper `escapeXpathText`: wrap in single quotes when the value
has no single quote, else in double quotes when it has no double quote, else
produce an XPath `concat()` expression. -/
def escapeXpathText (s : String) : String :=
  if s.data.contains squote then
    if s.data.contains dquote then
      "concat(" ++ squoteS ++ (⟨xpSplice s.data⟩ : String) ++ squoteS ++ ")"
    else dquoteS ++ s ++ dquoteS
  else squoteS ++ s ++ squoteS

/-- Character-level escaping of `escapeCssAttr`: backslashes are doubled and
double quotes are backslash-escaped. -/
def cssAttrEscChars : List Char → List Char
  | [] => []
  | c :: rest =>
    (if c == '\\' then ['\\', '\\']
     else if c == dquote then ['\\', dquote]
     else [c]) ++ cssAttrEscChars rest

/-- The source helper `escapeCssAttr`: escape backslashes and double quotes,
then wrap in double quotes. -/
def escapeCssAttr (v : String) : String :=
  dquoteS ++ (⟨cssAttrEscChars v.data⟩ : String) ++ dquoteS

/-- Lowercase hexadecimal digit. -/
def hexDigit (n : Nat) : Char :=
  if n < 10 then Char.ofNat (48 + n) else Char.ofNat (87 + n)

/-- Hexadecimal digits of `n`, most significant first; the fuel argument
makes the recursion structural. -/
def hexAux : Nat → Nat → List Char
  | 0, _ => []
  | fuel + 1, n => if n = 0 then [] else hexAux fuel (n / 16) ++ [hexDigit (n % 16)]

/-- Lowercase hexadecimal rendering of a natural number. -/
def hexStr (n : Nat) : String := if n = 0 then "0" else ⟨hexAux (n + 1) n⟩

/-- One character of the CSSOM serialize-an-identifier algorithm backing the
platform's `CSS.escape`, which the source applies to `id` values in CSS
selectors.  `first` is the first character of the whole input, `i` the index
of `c` and `len` the input length. -/
def cssEscapeChar (first : Option Char) (i : Nat) (len : Nat) (c : Char) : List Char :=
  let n := c.toNat
  if n = 0 then [Char.ofNat 0xFFFD]
  else if (1 ≤ n ∧ n ≤ 0x1F) ∨ n = 0x7F then '\\' :: (hexStr n).data ++ [' ']
  else if i = 0 ∧ c.isDigit then '\\' :: (hexStr n).data ++ [' ']
  else if i = 1 ∧ c.isDigit ∧ first = some '-' then '\\' :: (hexStr n).data ++ [' ']
  else if i = 0 ∧ c = '-' ∧ len = 1 then ['\\', '-']
  else if n ≥ 0x80 ∨ c = '-' ∨ c = '_' ∨ c.isDigit ∨
          ('A' ≤ c ∧ c ≤ 'Z') ∨ ('a' ≤ c ∧ c ≤ 'z') then [c]
  else ['\\', c]

/-- Model of the platform's `CSS.escape`. -/
def cssEscape (v : String) : String :=
  ⟨(v.data.enum.map (fun p => cssEscapeChar v.data.head? p.1 v.data.length p.2)).flatten⟩

mutual
/-- A node of a parsed HTML document: a text node or an element with a tag
name (stored in canonical lowercase, as the lenient HTML parser produces),
an attribute list and child nodes. -/
inductive Node where
  | text (s : String) : Node
  | elem (tag : String) (attrs : List (String × String)) (children : NodeList) : Node
deriving DecidableEq
/-- A list of sibling nodes (a separate inductive so that all recursion over
the tree is structural and kernel-reducible). -/
inductive NodeList where
  | nil : NodeList
  | cons (hd : Node) (tl : NodeList) : NodeList
deriving DecidableEq
end

/-- Build a `NodeList` from a `List Node`. -/
def nl : List Node → NodeList
  | [] => .nil
  | n :: rest => .cons n (nl rest)

/-- View a `NodeList` as a `List Node`. -/
def NodeList.toList : NodeList → List Node
  | .nil => []
  | .cons n rest => n :: rest.toList

/-- The tag name of a node (empty for text nodes, which never carry one). -/
def Node.tagName : Node → String
  | .text _ => ""
  | .elem t _ _ => t

/-- The attribute list of a node. -/
def Node.attrList : Node → List (String × String)
  | .text _ => []
  | .elem _ a _ => a

/-- The child nodes of a node, as a list. -/
def Node.childNodes : Node → List Node
  | .text _ => []
  | .elem _ _ cs => cs.toList

/-- The child nodes of a node, as a `NodeList`. -/
def Node.childNL : Node → NodeList
  | .text _ => .nil
  | .elem _ _ cs => cs

/-- Whether a node is an element. -/
def Node.isElem : Node → Bool
  | .text _ => false
  | .elem _ _ _ => true

/-- Model of `getAttribute`: the value of the first attribute with the given
name, or `none` when absent. -/
def Node.getAttribute (n : Node) (name : String) : Option String :=
  (n.attrList.find? (fun a => a.1 == name)).map (·.2)

/-- Model of the `id` property: the `id` attribute's value, `""` if absent. -/
def Node.idAttr (n : Node) : String := (n.getAttribute "id").getD ""

mutual
/-- Model of `textContent`: concatenation of all descendant text. -/
def Node.textContent : Node → String
  | .text s => s
  | .elem _ _ cs => cs.textContentL
/-- The `textContent` of a list of sibling nodes. -/
def NodeList.textContentL : NodeList → String
  | .nil => ""
  | .cons n rest => n.textContent ++ rest.textContentL
end

/-- Model of `firstElementChild`. -/
def Node.firstElementChild (n : Node) : Option Node :=
  n.childNodes.find? Node.isElem

/-- An element occurrence in a document: the element itself, its index among
its parent's child nodes, and the chain of its ancestors, innermost first,
each with its own child index. -/
structure EInst where
  node : Node
  selfIdx : Nat
  anc : List (Node × Nat)
deriving DecidableEq

mutual
/-- Pre-order traversal (the order of `querySelectorAll("*")`) of a node,
collecting element occurrences; `i` is the node's index among its parent's
child nodes and `anc` the ancestor chain. -/
def travN (anc : List (Node × Nat)) (i : Nat) : Node → List EInst
  | .text _ => []
  | .elem t a cs => ⟨.elem t a cs, i, anc⟩ :: travF ((Node.elem t a cs, i) :: anc) 0 cs
/-- Pre-order traversal of a list of sibling nodes starting at child index `i`. -/
def travF (anc : List (Node × Nat)) (i : Nat) : NodeList → List EInst
  | .nil => []
  | .cons n rest => travN anc i n ++ travF anc (i + 1) rest
end

/-- All element occurrences of a document in document order, as returned by
`doc.querySelectorAll("*")`. -/
def allInsts (doc : Node) : List EInst := travN [] 0 doc

/-- Model of `doc.querySelector("label[for=...]")`: the first label element
in document order whose `for` attribute equals `v` (the source builds the
selector with `CSS.escape(id)`, which round-trips through selector parsing
to an exact attribute match on the raw value). -/
def querySelLabelFor (doc : Node) (v : String) : Option Node :=
  ((allInsts doc).find?
    (fun li => strLower li.node.tagName == "label" && li.node.getAttribute "for" == some v)).map (·.node)

/-- Model of `el.closest("label")`: the element itself or its nearest
ancestor whose tag is `label`. -/
def closestLabel (e : EInst) : Option Node :=
  (e.node :: e.anc.map (·.1)).find? (fun a => strLower a.tagName == "label")

/-- Model of `parent.querySelector("label")`: the first element occurrence
with tag `label` in the pre-order traversal of the parent's descendants.
Its `anc` is relative to the parent (`[]` means a direct child) and its
`selfIdx` is its index among the parent's child nodes. -/
def firstLabelInst (p : Node) : Option EInst :=
  (travF [] 0 p.childNL).find? (fun li => strLower li.node.tagName == "label")

/-- The index of the first element node strictly after index `j` in a child
list: the position of `nextElementSibling` of the node at `j`. -/
def nextElemIdx (cs : List Node) (j : Nat) : Option Nat :=
  ((cs.enum.drop (j + 1)).find? (fun p => p.2.isElem)).map (·.1)

/-- The loop of `getXPathTo`: walk the parent's child nodes; `k` counts down
to the element's own index while `ix` counts earlier element siblings with
the same tag name, exactly as the source's
`if sibling.nodeType === 1 && sibling.tagName === element.tagName` loop. -/
def sameTagIx (tn : String) : List Node → Nat → Nat → Option Nat
  | [], _, _ => none
  | _ :: _, 0, ix => some ix
  | c :: rest, k + 1, ix =>
    sameTagIx tn rest k (if c.isElem && c.tagName == tn then ix + 1 else ix)

/-- The source helper `getXPathTo`, by recursion over the ancestor chain.
The source's `element === document.body` comparison tests against the body
of the page hosting the tool, not the body of the document produced by
`DOMParser`; since every element passed in belongs to the parsed document,
that comparison is never true and contributes no case here. -/
def getXPathToAux : Node → Nat → List (Node × Nat) → String
  | n, _, [] =>
    if n.idAttr ≠ "" then "//*[@id=" ++ squoteS ++ n.idAttr ++ squoteS ++ "]"
    else if strLower n.tagName == "html" then "/html"
    else "/" ++ strLower n.tagName
  | n, selfIdx, (p, pIdx) :: rest =>
    if n.idAttr ≠ "" then "//*[@id=" ++ squoteS ++ n.idAttr ++ squoteS ++ "]"
    else if strLower n.tagName == "html" then "/html"
    else
      match sameTagIx n.tagName p.childNodes selfIdx 0 with
      | some ix =>
        getXPathToAux p pIdx rest ++ "/" ++ strLower n.tagName ++ "[" ++ Nat.repr (ix + 1) ++ "]"
      | none => "/" ++ strLower n.tagName

/-- The source helper `getXPathTo` applied to an element occurrence. -/
def getXPathTo (e : EInst) : String := getXPathToAux e.node e.selfIdx e.anc

/-- The source constant `STABLE_ATTRIBUTES`. -/
def STABLE_ATTRIBUTES : List String :=
  ["name", "placeholder", "type", "role", "aria-label", "alt", "href", "src"]

/-- The source constant `TEST_ID_ATTRIBUTES`. -/
def TEST_ID_ATTRIBUTES : List String := ["data-testid", "data-cy", "data-qa", "data-test"]

/-- The structural tags the element loop skips. -/
def structuralTags : List String := ["html", "head", "body", "script", "style", "meta", "title"]

/-- The tags eligible for the label-relationship rules. -/
def formTags : List String := ["input", "textarea", "select"]

/-- The tags eligible for the text-content rule. -/
def textTags : List String := ["button", "a", "div", "span", "h1", "h2", "h3", "p", "legend"]

/-- The tags eligible for the absolute-XPath fallback. -/
def fallbackTags : List String := ["input", "button", "a", "select", "textarea"]

/-- The sentinel placed in the test-id category when nothing was found. -/
def noTestIdMsg : String := "No data-test* attributes found"

/-- The test-id attributes present on a node with a truthy value, in the
fixed order of `TEST_ID_ATTRIBUTES`, paired with their values. -/
def tidPairs (n : Node) : List (String × String) :=
  TEST_ID_ATTRIBUTES.filterMap (fun attr =>
    match n.getAttribute attr with
    | some v => if v == "" then none else some (attr, v)
    | none => none)

/-- Rule 1 XPath candidates: `//tag[@attr=<escaped>]` per test-id attribute. -/
def tidXpaths (tag : String) (n : Node) : List String :=
  (tidPairs n).map (fun pr => "//" ++ tag ++ "[@" ++ pr.1 ++ "=" ++ escapeXpathText pr.2 ++ "]")

/-- Rule 1 CSS candidates: `tag[attr=<escaped>]` per test-id attribute; the
same strings are registered in the test-id category. -/
def tidCss (tag : String) (n : Node) : List String :=
  (tidPairs n).map (fun pr => tag ++ "[" ++ pr.1 ++ "=" ++ escapeCssAttr pr.2 ++ "]")

/-- Rule 2 XPath candidate from a truthy `id`. -/
def idXpaths (tag : String) (n : Node) : List String :=
  match n.getAttribute "id" with
  | some v => if v == "" then [] else ["//" ++ tag ++ "[@id=" ++ escapeXpathText v ++ "]"]
  | none => []

/-- Rule 2 CSS candidate from a truthy `id`. -/
def idCss (tag : String) (n : Node) : List String :=
  match n.getAttribute "id" with
  | some v => if v == "" then [] else [tag ++ "#" ++ cssEscape v]
  | none => []

/-- Rule 3a: the reverse `@for` label lookup for a form element with an id. -/
def labelForXpaths (doc : Node) (tag : String) (n : Node) : List String :=
  match n.getAttribute "id" with
  | some v =>
    if v == "" then []
    else
      match querySelLabelFor doc v with
      | some lab =>
        if jsTrim lab.textContent == "" then []
        else ["//" ++ tag ++ "[@id=//label[normalize-space(text())=" ++
              escapeXpathText (normWs lab.textContent) ++ "]/@for]"]
      | none => []
  | none => []

/-- Rule 3b XPath: enclosing label with this text, descendant tag. -/
def closestLabelXpaths (tag : String) (e : EInst) : List String :=
  match closestLabel e with
  | some lab =>
    if jsTrim lab.textContent == "" then []
    else ["//label[normalize-space(text())=" ++
          escapeXpathText (normWs lab.textContent) ++ "]//" ++ tag]
  | none => []

/-- Rule 3b CSS: `label:has(tag)`. -/
def closestLabelCss (tag : String) (e : EInst) : List String :=
  match closestLabel e with
  | some lab => if jsTrim lab.textContent == "" then [] else ["label:has(" ++ tag ++ ")"]
  | none => []

/-- Rule 3c: the source fetches the parent's first descendant label via
`querySelector("label")` and emits only when that very label's
`nextElementSibling` is the element itself, which forces the label to be a
direct child of the parent whose next element sibling is the element. -/
def siblingLabelXpaths (tag : String) (e : EInst) : List String :=
  match e.anc with
  | [] => []
  | (p, _) :: _ =>
    match firstLabelInst p with
    | some lab =>
      if jsTrim lab.node.textContent == "" then []
      else if lab.anc.isEmpty && (nextElemIdx p.childNodes lab.selfIdx == some e.selfIdx) then
        ["//label[normalize-space(text())=" ++
         escapeXpathText (normWs lab.node.textContent) ++ "]/following-sibling::" ++ tag]
      else []
    | none => []

/-- Rule 4: exact and contains text matches for leaf elements with short
normalised text. -/
def textXpaths (tag : String) (n : Node) : List String :=
  let text := normWs n.textContent
  if textTags.contains tag && !(text == "") && decide (text.length < 50) &&
     (n.firstElementChild).isNone then
    ["//" ++ tag ++ "[normalize-space(text())=" ++ escapeXpathText text ++ "]",
     "//" ++ tag ++ "[contains(normalize-space(text()), " ++ escapeXpathText text ++ ")]"]
  else []

/-- The stable attributes present on a node with a truthy value. -/
def stablePairs (n : Node) : List (String × String) :=
  STABLE_ATTRIBUTES.filterMap (fun attr =>
    match n.getAttribute attr with
    | some v => if v == "" then none else some (attr, v)
    | none => none)

/-- Rule 5 XPath candidates. -/
def stableXpaths (tag : String) (n : Node) : List String :=
  (stablePairs n).map (fun pr => "//" ++ tag ++ "[@" ++ pr.1 ++ "=" ++ escapeXpathText pr.2 ++ "]")

/-- Rule 5 CSS candidates. -/
def stableCss (tag : String) (n : Node) : List String :=
  (stablePairs n).map (fun pr => tag ++ "[" ++ pr.1 ++ "=" ++ escapeCssAttr pr.2 ++ "]")

/-- The candidates one element contributes to the three accumulators. -/
structure Contrib where
  xp : List String
  cs : List String
  tid : List String
deriving DecidableEq

/-- The empty contribution. -/
def emptyContrib : Contrib := ⟨[], [], []⟩

/-- The per-element body of the `elements.forEach` loop of
`generateSelectors`: skip structural tags, then apply the six rules in
source order, collecting the pushes to the three accumulators. -/
def processEl (doc : Node) (e : EInst) : Contrib :=
  let tag := strLower e.node.tagName
  if structuralTags.contains tag then emptyContrib
  else
    { xp := tidXpaths tag e.node ++ idXpaths tag e.node ++
        (if formTags.contains tag then
          labelForXpaths doc tag e.node ++ closestLabelXpaths tag e ++ siblingLabelXpaths tag e
         else []) ++
        textXpaths tag e.node ++ stableXpaths tag e.node ++
        (if fallbackTags.contains tag then [getXPathTo e] else [])
      cs := tidCss tag e.node ++ idCss tag e.node ++
        (if formTags.contains tag then closestLabelCss tag e else []) ++
        stableCss tag e.node
      tid := tidCss tag e.node }

/-- The contributions of all elements, with the source's
`if (index >= 100) return` guard applied to the document-order index. -/
def guardedContribs (doc : Node) : List Contrib :=
  (allInsts doc).enum.map (fun p => if p.1 < 100 then processEl doc p.2 else emptyContrib)

/-- The `xpaths` accumulator after the loop. -/
def rawXpaths (doc : Node) : List String := (guardedContribs doc).flatMap (·.xp)

/-- The `cssSelectors` accumulator after the loop. -/
def rawCss (doc : Node) : List String := (guardedContribs doc).flatMap (·.cs)

/-- The `dataTestIdSelectors` accumulator after the loop. -/
def rawTestIds (doc : Node) : List String := (guardedContribs doc).flatMap (·.tid)

/-- Insertion-order de-duplication, as `Array.from(new Set(xs))` performs:
`seen` holds the strings already emitted. -/
def dedupFirstAux (seen : List String) : List String → List String
  | [] => []
  | x :: xs =>
    if x ∈ seen then dedupFirstAux seen xs
    else x :: dedupFirstAux (x :: seen) xs

/-- Model of `Array.from(new Set(l))`. -/
def dedupFirst (l : List String) : List String := dedupFirstAux [] l

/-- The list fed to the test-id de-duplication: the accumulated candidates,
or the sentinel when none were found. -/
def tidSource (doc : Node) : List String :=
  if (rawTestIds doc).isEmpty then [noTestIdMsg] else rawTestIds doc

/-- The three output sequences. -/
structure Selectors where
  xpath : List String
  css : List String
  testIds : List String
deriving DecidableEq

/-- The result set `generateSelectors` stores on success. -/
def computeSelectors (doc : Node) : Selectors :=
  { xpath := dedupFirst (rawXpaths doc)
    css := dedupFirst (rawCss doc)
    testIds := dedupFirst (tidSource doc) }

/-- The two failure kinds of the synthesizer. -/
inductive GenError where
  | validation
  | parseFailure
deriving DecidableEq

/-- The source entry point `generateSelectors`: reject blank input before the parse
result is consumed, otherwise synthesize from the parsed document `doc`
(parsing itself is the browser's `DOMParser`, an external collaborator, so
the parsed tree is a parameter). -/
def generateSelectors (html : String) (doc : Node) : Except GenError Selectors :=
  if jsTrim html == "" then .error .validation
  else .ok (computeSelectors doc)

/-- Modelled from the spec: the lenient HTML parser (`DOMParser` with
`"text/html"`, not part of this repository) never fails and always wraps a
body-content fragment in `html`, `head` and `body` elements. -/
def parseFragment (ns : NodeList) : Node :=
  .elem "html" [] (.cons (.elem "head" [] .nil) (.cons (.elem "body" [] ns) .nil))

/-- The specification-order first-occurrence filter: keep each string's
first emission in place and drop every later duplicate. -/
def keepFirsts : List String → List String
  | [] => []
  | x :: xs => x :: keepFirsts (xs.filter (fun y => decide (y ≠ x)))
termination_by l => l.length
decreasing_by
  simp only [List.length_cons]
  exact Nat.lt_succ_of_le (List.length_filter_le _ _)

/-- Join segments with a separator between consecutive segments. -/
def sepJoin (sep : List Char) : List (List Char) → List Char
  | [] => []
  | [x] => x
  | x :: y :: rest => x ++ sep ++ sepJoin sep (y :: rest)

/-- A fragment holding a single id-less `input`, parsed. -/
def docClaim1 : Node := parseFragment (.cons (.elem "input" [] .nil) .nil)

/-- An id value containing a single quote. -/
def idClaim2 : String := "a" ++ squoteS ++ "b"

/-- A fragment holding an `input` whose id contains a single quote, parsed. -/
def docClaim2 : Node := parseFragment (.cons (.elem "input" [("id", idClaim2)] .nil) .nil)

/-- The parsed fragment for the leaf `div` with text containing a double quote. -/
def docClaim2b : Node :=
  parseFragment (.cons (.elem "div" [] (.cons (.text ("Hello " ++ dquoteS ++ "World" ++ dquoteS)) .nil)) .nil)

/-- An `input` carrying a `data-testid` attribute. -/
def inputClaim3 : Node := .elem "input" [("data-testid", "user-input")] .nil

/-- The body wrapper produced for `inputClaim3`. -/
def bodyClaim3 : Node := .elem "body" [] (.cons inputClaim3 .nil)

/-- The parsed fragment holding `inputClaim3`. -/
def docClaim3 : Node := parseFragment (.cons inputClaim3 .nil)

/-- A parsed fragment with 120 caller elements. -/
def docClaim6 : Node := parseFragment (nl (List.replicate 120 (.elem "em" [] .nil)))

/-- The parsed full document `<html><head></head><body><p id="a">Hi</p></body></html>`. -/
def docClaim7 : Node :=
  .elem "html" [] (nl [.elem "head" [] .nil,
    .elem "body" [] (nl [.elem "p" [("id", "a")] (nl [.text "Hi"])])])

/-- A `div` whose first descendant label is not the `input`'s preceding sibling:
the second label is. -/
def divClaim8 : Node :=
  .elem "div" [] (nl [.elem "label" [] (nl [.text "First"]),
    .elem "label" [] (nl [.text "Second"]), .elem "input" [] .nil])

/-- The parsed fragment holding `divClaim8`. -/
def docClaim8 : Node := parseFragment (.cons divClaim8 .nil)

/-- A label immediately followed by an `input`. -/
def labelClaim8w : Node := .elem "label" [] (.cons (.text "Email") .nil)

/-- The body wrapper produced for the label-then-input fragment. -/
def bodyClaim8w : Node := .elem "body" [] (.cons labelClaim8w (.cons (.elem "input" [] .nil) .nil))

/-- The parsed label-then-input fragment. -/
def docClaim8w : Node := parseFragment (.cons labelClaim8w (.cons (.elem "input" [] .nil) .nil))

/-- The head wrapper element the parser inserts. -/
def headN : Node := .elem "head" [] .nil

/-- The body wrapper element the parser inserts around a fragment. -/
def bodyN (ns : NodeList) : Node := .elem "body" [] ns

/-- An `input` carrying a `data-cy` attribute. -/
def inputClaim10 : Node := .elem "input" [("data-cy", "submit")] .nil

/-- The parsed fragment holding `inputClaim10`. -/
def docClaim10 : Node := parseFragment (.cons inputClaim10 .nil)

/-! ### General lemmas about the embedding -/

theorem mem_dedupFirstAux {x : String} {seen l : List String} :
    x ∈ dedupFirstAux seen l ↔ x ∈ l ∧ x ∉ seen := by
  induction l generalizing seen with
  | nil => simp [dedupFirstAux]
  | cons y ys ih =>
    simp only [dedupFirstAux]
    by_cases hy : y ∈ seen
    · rw [if_pos hy, ih]
      simp only [List.mem_cons]
      constructor
      · exact fun h => ⟨Or.inr h.1, h.2⟩
      · rintro ⟨h1 | h1, h2⟩
        · subst h1; exact absurd hy h2
        · exact ⟨h1, h2⟩
    · rw [if_neg hy]
      simp only [List.mem_cons, ih]
      by_cases hxy : x = y
      · subst hxy; tauto
      · tauto

theorem nodup_dedupFirstAux (seen l : List String) : (dedupFirstAux seen l).Nodup := by
  induction l generalizing seen with
  | nil => simp [dedupFirstAux]
  | cons y ys ih =>
    simp only [dedupFirstAux]
    split
    · exact ih seen
    · refine List.nodup_cons.mpr ⟨?_, ih (y :: seen)⟩
      intro hmem
      exact (mem_dedupFirstAux.mp hmem).2 (List.mem_cons_self y seen)

theorem mem_dedupFirst {x : String} {l : List String} : x ∈ dedupFirst l ↔ x ∈ l := by
  unfold dedupFirst
  rw [mem_dedupFirstAux]
  simp

theorem nodup_dedupFirst (l : List String) : (dedupFirst l).Nodup := nodup_dedupFirstAux [] l

theorem dedupFirstAux_congr (s1 s2 l : List String) (h : ∀ y, y ∈ s1 ↔ y ∈ s2) :
    dedupFirstAux s1 l = dedupFirstAux s2 l := by
  induction l generalizing s1 s2 with
  | nil => rfl
  | cons y ys ih =>
    simp only [dedupFirstAux]
    by_cases hy : y ∈ s1
    · rw [if_pos hy, if_pos ((h y).mp hy)]
      exact ih s1 s2 h
    · rw [if_neg hy, if_neg (fun hc => hy ((h y).mpr hc))]
      refine congrArg _ (ih (y :: s1) (y :: s2) ?_)
      intro z
      simp only [List.mem_cons]
      exact or_congr Iff.rfl (h z)

theorem dedupFirstAux_cons_seen (a : String) (seen l : List String) :
    dedupFirstAux (a :: seen) l = dedupFirstAux seen (l.filter (fun y => decide (y ≠ a))) := by
  induction l generalizing seen with
  | nil => rfl
  | cons y ys ih =>
    by_cases hya : y = a
    · subst hya
      have hd : (decide (y ≠ y)) = false := by simp
      rw [List.filter_cons, hd]
      simp only [Bool.false_eq_true, if_false, dedupFirstAux]
      rw [if_pos (List.mem_cons_self y seen)]
      exact ih seen
    · have hkeep : (decide (y ≠ a)) = true := by simp [hya]
      rw [List.filter_cons, hkeep]
      simp only [if_true, dedupFirstAux]
      by_cases hy : y ∈ seen
      · rw [if_pos (List.mem_cons_of_mem a hy), if_pos hy]
        exact ih seen
      · have hny : y ∉ a :: seen := by
          simp only [List.mem_cons]
          tauto
        rw [if_neg hny, if_neg hy]
        refine congrArg _ ?_
        calc dedupFirstAux (y :: a :: seen) ys
            = dedupFirstAux (a :: y :: seen) ys := by
              refine dedupFirstAux_congr _ _ _ ?_
              intro z
              simp only [List.mem_cons]
              tauto
          _ = dedupFirstAux (y :: seen) (ys.filter (fun z => decide (z ≠ a))) := ih (y :: seen)

theorem dedupFirst_eq_keepFirsts_aux (n : Nat) :
    ∀ l : List String, l.length ≤ n → dedupFirst l = keepFirsts l := by
  induction n with
  | zero =>
    intro l hl
    cases l with
    | nil => simp only [keepFirsts]; rfl
    | cons x xs => simp at hl
  | succ n ih =>
    intro l hl
    cases l with
    | nil => simp only [keepFirsts]; rfl
    | cons x xs =>
      rw [keepFirsts]
      unfold dedupFirst
      simp only [dedupFirstAux]
      rw [if_neg (List.not_mem_nil x)]
      rw [dedupFirstAux_cons_seen]
      refine congrArg _ ?_
      have hlen : (xs.filter (fun y => decide (y ≠ x))).length ≤ n := by
        have h1 := List.length_filter_le (fun y => decide (y ≠ x)) xs
        have h2 : xs.length + 1 ≤ n + 1 := by simpa using hl
        omega
      exact ih _ hlen

theorem dedupFirst_eq_keepFirsts (l : List String) : dedupFirst l = keepFirsts l :=
  dedupFirst_eq_keepFirsts_aux l.length l (Nat.le_refl _)

theorem enumFrom_guard {α β : Type} (f : α → β) (g : β) (n : Nat) (k : Nat) (l : List α) :
    (List.enumFrom k l).map (fun p => if p.1 < n then f p.2 else g)
      = (l.take (n - k)).map f ++ (l.drop (n - k)).map (fun _ => g) := by
  induction l generalizing k with
  | nil => simp
  | cons x xs ih =>
    rw [List.enumFrom_cons, List.map_cons]
    by_cases hk : k < n
    · rw [if_pos hk]
      have h1 : n - k = (n - (k + 1)) + 1 := by omega
      rw [h1, List.take_succ_cons, List.drop_succ_cons, List.map_cons, List.cons_append]
      rw [ih (k + 1)]
    · rw [if_neg hk]
      have h0 : n - k = 0 := by omega
      have h1 : n - (k + 1) = 0 := by omega
      rw [h0, ih (k + 1), h1]
      simp

theorem guardedContribs_eq (doc : Node) :
    guardedContribs doc = ((allInsts doc).take 100).map (processEl doc)
      ++ ((allInsts doc).drop 100).map (fun _ => emptyContrib) := by
  unfold guardedContribs
  have h := enumFrom_guard (processEl doc) emptyContrib 100 0 (allInsts doc)
  simpa [List.enum] using h

theorem flatMap_const_nil {α β : Type} (l : List α) :
    (l.flatMap (fun _ => ([] : List β))) = [] := by
  induction l with
  | nil => rfl
  | cons x xs ih => rw [List.flatMap_cons, ih]; rfl

theorem rawXpaths_take (doc : Node) :
    rawXpaths doc = ((allInsts doc).take 100).flatMap (fun e => (processEl doc e).xp) := by
  unfold rawXpaths
  rw [guardedContribs_eq, List.flatMap_append, List.flatMap_map, List.flatMap_map]
  have hz : ((allInsts doc).drop 100).flatMap (fun _ : EInst => emptyContrib.xp) = [] :=
    flatMap_const_nil _
  rw [hz, List.append_nil]

theorem rawCss_take (doc : Node) :
    rawCss doc = ((allInsts doc).take 100).flatMap (fun e => (processEl doc e).cs) := by
  unfold rawCss
  rw [guardedContribs_eq, List.flatMap_append, List.flatMap_map, List.flatMap_map]
  have hz : ((allInsts doc).drop 100).flatMap (fun _ : EInst => emptyContrib.cs) = [] :=
    flatMap_const_nil _
  rw [hz, List.append_nil]

theorem rawTestIds_take (doc : Node) :
    rawTestIds doc = ((allInsts doc).take 100).flatMap (fun e => (processEl doc e).tid) := by
  unfold rawTestIds
  rw [guardedContribs_eq, List.flatMap_append, List.flatMap_map, List.flatMap_map]
  have hz : ((allInsts doc).drop 100).flatMap (fun _ : EInst => emptyContrib.tid) = [] :=
    flatMap_const_nil _
  rw [hz, List.append_nil]

theorem mem_rawXpaths {doc : Node} {e : EInst} {s : String}
    (he : e ∈ (allInsts doc).take 100) (hs : s ∈ (processEl doc e).xp) :
    s ∈ rawXpaths doc := by
  rw [rawXpaths_take]
  exact List.mem_flatMap.mpr ⟨e, he, hs⟩

theorem mem_rawCss {doc : Node} {e : EInst} {s : String}
    (he : e ∈ (allInsts doc).take 100) (hs : s ∈ (processEl doc e).cs) :
    s ∈ rawCss doc := by
  rw [rawCss_take]
  exact List.mem_flatMap.mpr ⟨e, he, hs⟩

theorem mem_rawTestIds {doc : Node} {e : EInst} {s : String}
    (he : e ∈ (allInsts doc).take 100) (hs : s ∈ (processEl doc e).tid) :
    s ∈ rawTestIds doc := by
  rw [rawTestIds_take]
  exact List.mem_flatMap.mpr ⟨e, he, hs⟩

theorem mem_xpath_out {doc : Node} {s : String} (h : s ∈ rawXpaths doc) :
    s ∈ (computeSelectors doc).xpath :=
  mem_dedupFirst.mpr h

theorem mem_css_out {doc : Node} {s : String} (h : s ∈ rawCss doc) :
    s ∈ (computeSelectors doc).css :=
  mem_dedupFirst.mpr h

theorem rawTestIds_ne_nil_testIds {doc : Node} (h : rawTestIds doc ≠ []) :
    (computeSelectors doc).testIds = dedupFirst (rawTestIds doc) := by
  show dedupFirst (tidSource doc) = dedupFirst (rawTestIds doc)
  unfold tidSource
  rw [if_neg (by simpa [List.isEmpty_iff] using h)]

theorem mem_testIds_out {doc : Node} {s : String} (h : s ∈ rawTestIds doc) :
    s ∈ (computeSelectors doc).testIds := by
  have hne : rawTestIds doc ≠ [] := by
    intro h0
    rw [h0] at h
    cases h
  rw [rawTestIds_ne_nil_testIds hne]
  exact mem_dedupFirst.mpr h

theorem processEl_structural {doc : Node} {e : EInst}
    (h : structuralTags.contains (strLower e.node.tagName) = true) :
    processEl doc e = emptyContrib := by
  unfold processEl
  simp only [h, if_true]

theorem processEl_xp {doc : Node} {e : EInst}
    (h : structuralTags.contains (strLower e.node.tagName) = false) :
    (processEl doc e).xp =
      tidXpaths (strLower e.node.tagName) e.node ++ idXpaths (strLower e.node.tagName) e.node ++
      (if formTags.contains (strLower e.node.tagName) then
          labelForXpaths doc (strLower e.node.tagName) e.node ++
          closestLabelXpaths (strLower e.node.tagName) e ++
          siblingLabelXpaths (strLower e.node.tagName) e
        else []) ++
      textXpaths (strLower e.node.tagName) e.node ++
      stableXpaths (strLower e.node.tagName) e.node ++
      (if fallbackTags.contains (strLower e.node.tagName) then [getXPathTo e] else []) := by
  unfold processEl
  simp only [h, Bool.false_eq_true, if_false]

theorem processEl_cs {doc : Node} {e : EInst}
    (h : structuralTags.contains (strLower e.node.tagName) = false) :
    (processEl doc e).cs =
      tidCss (strLower e.node.tagName) e.node ++ idCss (strLower e.node.tagName) e.node ++
      (if formTags.contains (strLower e.node.tagName) then
          closestLabelCss (strLower e.node.tagName) e
        else []) ++
      stableCss (strLower e.node.tagName) e.node := by
  unfold processEl
  simp only [h, Bool.false_eq_true, if_false]

theorem processEl_tid {doc : Node} {e : EInst}
    (h : structuralTags.contains (strLower e.node.tagName) = false) :
    (processEl doc e).tid = tidCss (strLower e.node.tagName) e.node := by
  unfold processEl
  simp only [h, Bool.false_eq_true, if_false]

theorem mem_tidXpaths {tag : String} {n : Node} {attr v : String}
    (ha : attr ∈ TEST_ID_ATTRIBUTES) (hv : n.getAttribute attr = some v) (hne : v ≠ "") :
    ("//" ++ tag ++ "[@" ++ attr ++ "=" ++ escapeXpathText v ++ "]") ∈ tidXpaths tag n := by
  unfold tidXpaths
  refine List.mem_map.mpr ⟨(attr, v), ?_, rfl⟩
  unfold tidPairs
  refine List.mem_filterMap.mpr ⟨attr, ha, ?_⟩
  rw [hv]
  simp [hne]

theorem mem_tidCss {tag : String} {n : Node} {attr v : String}
    (ha : attr ∈ TEST_ID_ATTRIBUTES) (hv : n.getAttribute attr = some v) (hne : v ≠ "") :
    (tag ++ "[" ++ attr ++ "=" ++ escapeCssAttr v ++ "]") ∈ tidCss tag n := by
  unfold tidCss
  refine List.mem_map.mpr ⟨(attr, v), ?_, rfl⟩
  unfold tidPairs
  refine List.mem_filterMap.mpr ⟨attr, ha, ?_⟩
  rw [hv]
  simp [hne]

theorem jsTrim_all_ws {html : String} (h : ∀ c ∈ html.data, jsWhitespace c = true) :
    jsTrim html = "" := by
  unfold jsTrim trimChars
  rw [List.dropWhile_eq_nil_iff.mpr h]
  rfl

theorem splitOnChar_ne_nil (c : Char) (l : List Char) : splitOnChar c l ≠ [] := by
  cases l with
  | nil => simp [splitOnChar]
  | cons x rest =>
    rw [splitOnChar]
    by_cases hx : x == c
    · rw [if_pos hx]
      simp
    · rw [if_neg hx]
      rcases hs : splitOnChar c rest with _ | ⟨seg, segs⟩
      · simp
      · simp

theorem xpSplice_eq_sepJoin (l : List Char) :
    xpSplice l = sepJoin spliceSeg (splitOnChar squote l) := by
  induction l with
  | nil => rfl
  | cons c rest ih =>
    rw [xpSplice, splitOnChar]
    by_cases hc : c == squote
    · rw [if_pos hc, if_pos hc]
      rcases hs : splitOnChar squote rest with _ | ⟨seg, segs⟩
      · exact absurd hs (splitOnChar_ne_nil squote rest)
      · rw [sepJoin]
        rw [ih, hs]
        simp
    · rw [if_neg hc, if_neg hc]
      rcases hs : splitOnChar squote rest with _ | ⟨seg, segs⟩
      · exact absurd hs (splitOnChar_ne_nil squote rest)
      · rw [ih, hs]
        cases segs with
        | nil => simp [sepJoin]
        | cons t ts => simp [sepJoin]

/-! ### The claims -/

/-- C1: the absolute-fallback XPath does walk ancestors to the root emitting
1-based same-tag positional segments and does short-circuit on an `id` and on
the `html` root, but the `element === document.body` comparison in the source
tests the body of the page hosting the tool, never an element of the parsed
document, so the parsed document's body is not short-circuited: an id-less
`input` directly under body yields `/html/body[1]/input[1]`, not the
`/html/body/input[1]` the claim states. -/
theorem claim1_fallback_body_segment :
    (computeSelectors docClaim1).xpath = ["/html/body[1]/input[1]"]
    ∧ "/html/body/input[1]" ∉ (computeSelectors docClaim1).xpath := by decide

/-- C2 counterexample: for an `input` whose id is `a'b`, the absolute
fallback emits `//*[@id='a'b']`, wrapping the single-quote-bearing id in
single quotes instead of applying the claimed escaping rule (which would
produce `//*[@id="a'b"]`). -/
theorem claim2_fallback_id_unescaped :
    ("//*[@id=" ++ squoteS ++ idClaim2 ++ squoteS ++ "]") ∈ (computeSelectors docClaim2).xpath
    ∧ ("//*[@id=" ++ escapeXpathText idClaim2 ++ "]") ∉ (computeSelectors docClaim2).xpath := by
  decide

/-- C2 amended: every XPath literal routed through `escapeXpathText`
(attribute values, element and label text, and the id-equality rule) is
escaped as claimed — single quotes when no single quote occurs, else double
quotes when no double quote occurs, else a `concat()` splice of single-quote
segments — and the leaf div with text `Hello "World"` receives the
exact-text XPath `//div[normalize-space(text())='Hello "World"']`; only the
absolute-fallback `//*[@id='...']` form bypasses this rule. -/
theorem claim2_escaping_rule :
    (∀ s : String, s.data.contains squote = false →
        escapeXpathText s = squoteS ++ s ++ squoteS)
    ∧ (∀ s : String, s.data.contains squote = true → s.data.contains dquote = false →
        escapeXpathText s = dquoteS ++ s ++ dquoteS)
    ∧ (∀ s : String, s.data.contains squote = true → s.data.contains dquote = true →
        escapeXpathText s = "concat(" ++ squoteS ++
          (⟨sepJoin spliceSeg (splitOnChar squote s.data)⟩ : String) ++ squoteS ++ ")")
    ∧ ("//div[normalize-space(text())=" ++ squoteS ++ "Hello " ++ dquoteS ++ "World" ++ dquoteS
        ++ squoteS ++ "]") ∈ (computeSelectors docClaim2b).xpath := by
  refine ⟨?_, ?_, ?_, by decide⟩
  · intro s h
    unfold escapeXpathText
    rw [h]
    simp
  · intro s h1 h2
    unfold escapeXpathText
    rw [h1, h2]
    simp
  · intro s h1 h2
    unfold escapeXpathText
    rw [h1, h2]
    simp only [if_true]
    rw [xpSplice_eq_sepJoin]

/-- Witness for the amended C2 statement at concrete inputs covering each of
the three escaping cases. -/
theorem claim2_escaping_rule_w :
    escapeXpathText "ab" = squoteS ++ "ab" ++ squoteS
    ∧ escapeXpathText ("a" ++ squoteS) = dquoteS ++ ("a" ++ squoteS) ++ dquoteS
    ∧ escapeXpathText ("a" ++ squoteS ++ dquoteS) = "concat(" ++ squoteS ++
        (⟨sepJoin spliceSeg (splitOnChar squote ("a" ++ squoteS ++ dquoteS).data)⟩ : String)
        ++ squoteS ++ ")" :=
  ⟨claim2_escaping_rule.1 "ab" (by decide),
   claim2_escaping_rule.2.1 ("a" ++ squoteS) (by decide) (by decide),
   claim2_escaping_rule.2.2.1 ("a" ++ squoteS ++ dquoteS) (by decide) (by decide)⟩

/-- C4: each of the three output sequences is duplicate-free and equals its
raw emission sequence with every non-first occurrence removed, so the
retained occurrence of each string sits at its first-emission position and
first-seen order is preserved. -/
theorem claim4_dedup_first_seen (doc : Node) :
    ((computeSelectors doc).xpath.Nodup
      ∧ (computeSelectors doc).xpath = keepFirsts (rawXpaths doc))
    ∧ ((computeSelectors doc).css.Nodup
      ∧ (computeSelectors doc).css = keepFirsts (rawCss doc))
    ∧ ((computeSelectors doc).testIds.Nodup
      ∧ (computeSelectors doc).testIds = keepFirsts (tidSource doc)) :=
  ⟨⟨nodup_dedupFirst _, dedupFirst_eq_keepFirsts _⟩,
   ⟨nodup_dedupFirst _, dedupFirst_eq_keepFirsts _⟩,
   ⟨nodup_dedupFirst _, dedupFirst_eq_keepFirsts _⟩⟩

/-- C5: empty or whitespace-only input makes `generateSelectors` report the
validation failure — a kind distinct from the parse failure — regardless of
any parse result, so no parsing outcome is consumed and no result set is
produced. -/
theorem claim5_blank_rejected (html : String)
    (h : ∀ c ∈ html.data, jsWhitespace c = true) (doc : Node) :
    generateSelectors html doc = Except.error GenError.validation
    ∧ GenError.validation ≠ GenError.parseFailure := by
  refine ⟨?_, by decide⟩
  unfold generateSelectors
  rw [jsTrim_all_ws h]
  simp

/-- Witness for C5 at a concrete whitespace-only input. -/
theorem claim5_blank_rejected_w :
    generateSelectors "  " (parseFragment .nil) = Except.error GenError.validation
    ∧ GenError.validation ≠ GenError.parseFailure :=
  claim5_blank_rejected "  " (by decide) (parseFragment .nil)

/-- C3: for every inspected element and every test-id attribute (in the
fixed order of `TEST_ID_ATTRIBUTES`) present with a non-empty value, the
XPath attribute-equality expression enters the xpath category and the CSS
attribute-equality form enters both the css and the test-id categories; the
final test-id sequence is the de-duplicated candidate list, or the single
sentinel when no candidate was found. -/
theorem claim3_testid_rule (doc : Node) :
    (∀ e ∈ (allInsts doc).take 100, ∀ attr ∈ TEST_ID_ATTRIBUTES, ∀ v : String,
        structuralTags.contains (strLower e.node.tagName) = false →
        e.node.getAttribute attr = some v → v ≠ "" →
        ("//" ++ strLower e.node.tagName ++ "[@" ++ attr ++ "=" ++ escapeXpathText v ++ "]")
            ∈ (computeSelectors doc).xpath
          ∧ (strLower e.node.tagName ++ "[" ++ attr ++ "=" ++ escapeCssAttr v ++ "]")
            ∈ (computeSelectors doc).css
          ∧ (strLower e.node.tagName ++ "[" ++ attr ++ "=" ++ escapeCssAttr v ++ "]")
            ∈ (computeSelectors doc).testIds)
    ∧ (rawTestIds doc = [] → (computeSelectors doc).testIds = [noTestIdMsg])
    ∧ (rawTestIds doc ≠ [] → (computeSelectors doc).testIds = dedupFirst (rawTestIds doc)) := by
  refine ⟨?_, ?_, fun h => rawTestIds_ne_nil_testIds h⟩
  · intro e he attr ha v hstruct hv hne
    refine ⟨?_, ?_, ?_⟩
    · apply mem_xpath_out
      apply mem_rawXpaths he
      rw [processEl_xp hstruct]
      exact List.mem_append_left _ (List.mem_append_left _ (List.mem_append_left _
        (List.mem_append_left _ (List.mem_append_left _ (mem_tidXpaths ha hv hne)))))
    · apply mem_css_out
      apply mem_rawCss he
      rw [processEl_cs hstruct]
      exact List.mem_append_left _ (List.mem_append_left _
        (List.mem_append_left _ (mem_tidCss ha hv hne)))
    · apply mem_testIds_out
      apply mem_rawTestIds he
      rw [processEl_tid hstruct]
      exact mem_tidCss ha hv hne
  · intro h0
    show dedupFirst (tidSource doc) = [noTestIdMsg]
    unfold tidSource
    rw [h0]
    decide

/-- Witness for C3 at the element `<input data-testid="user-input">`. -/
theorem claim3_testid_rule_w :
    ("//input[@data-testid=" ++ squoteS ++ "user-input" ++ squoteS ++ "]")
        ∈ (computeSelectors docClaim3).xpath
    ∧ ("input[data-testid=" ++ dquoteS ++ "user-input" ++ dquoteS ++ "]")
        ∈ (computeSelectors docClaim3).css
    ∧ ("input[data-testid=" ++ dquoteS ++ "user-input" ++ dquoteS ++ "]")
        ∈ (computeSelectors docClaim3).testIds :=
  (claim3_testid_rule docClaim3).1 ⟨inputClaim3, 0, [(bodyClaim3, 1), (docClaim3, 0)]⟩
    (by decide) "data-testid" (by decide) "user-input" (by decide) (by decide) (by decide)

/-- C6: only the first 100 element occurrences of the full pre-order
traversal feed the three accumulators — elements at position 100 or later
contribute nothing — and a call with non-blank input still succeeds,
whatever the document size. -/
theorem claim6_element_cap (doc : Node) :
    rawXpaths doc = ((allInsts doc).take 100).flatMap (fun e => (processEl doc e).xp)
    ∧ rawCss doc = ((allInsts doc).take 100).flatMap (fun e => (processEl doc e).cs)
    ∧ rawTestIds doc = ((allInsts doc).take 100).flatMap (fun e => (processEl doc e).tid)
    ∧ ∀ html : String, jsTrim html ≠ "" →
        generateSelectors html doc = Except.ok (computeSelectors doc) := by
  refine ⟨rawXpaths_take doc, rawCss_take doc, rawTestIds_take doc, ?_⟩
  intro html hh
  unfold generateSelectors
  simp [hh]

/-- Witness for C6 on a parsed fragment with 120 caller elements. -/
theorem claim6_element_cap_w :
    generateSelectors "<p>" docClaim6 = Except.ok (computeSelectors docClaim6) :=
  (claim6_element_cap docClaim6).2.2.2 "<p>" (by decide)

/-- C7: every element whose lowercased tag is one of the structural tags
contributes nothing, wherever it occurs; and on the parsed document
`<html><head></head><body><p id="a">Hi</p></body></html>` the emitted
selectors are exactly the `p`-based ones, so `html`, `head`, `body` never
appear as the tag token of any selector. -/
theorem claim7_structural_skip :
    (∀ (doc : Node) (e : EInst),
        structuralTags.contains (strLower e.node.tagName) = true →
        processEl doc e = emptyContrib)
    ∧ (computeSelectors docClaim7).xpath
        = ["//p[@id=" ++ squoteS ++ "a" ++ squoteS ++ "]",
           "//p[normalize-space(text())=" ++ squoteS ++ "Hi" ++ squoteS ++ "]",
           "//p[contains(normalize-space(text()), " ++ squoteS ++ "Hi" ++ squoteS ++ ")]"]
    ∧ (computeSelectors docClaim7).css = ["p#a"]
    ∧ (computeSelectors docClaim7).testIds = [noTestIdMsg] :=
  ⟨fun _ _ h => processEl_structural h, by decide, by decide, by decide⟩

/-- Witness for C7's universal part at the `html` root of the example
document. -/
theorem claim7_structural_skip_w :
    processEl docClaim7 ⟨docClaim7, 0, []⟩ = emptyContrib :=
  claim7_structural_skip.1 docClaim7 ⟨docClaim7, 0, []⟩ (by decide)

/-- C10: whenever the test-id output is not the sentinel singleton, each of
its strings also occurs in the CSS output, because every test-id candidate
is pushed to both accumulators before de-duplication. -/
theorem claim10_testids_in_css (doc : Node)
    (h : (computeSelectors doc).testIds ≠ [noTestIdMsg]) :
    ∀ s ∈ (computeSelectors doc).testIds, s ∈ (computeSelectors doc).css := by
  intro s hs
  have hraw : rawTestIds doc ≠ [] := by
    intro h0
    apply h
    show dedupFirst (tidSource doc) = [noTestIdMsg]
    unfold tidSource
    rw [h0]
    decide
  rw [rawTestIds_ne_nil_testIds hraw] at hs
  have hs2 : s ∈ rawTestIds doc := mem_dedupFirst.mp hs
  rw [rawTestIds_take doc] at hs2
  rcases List.mem_flatMap.mp hs2 with ⟨e, he, hse⟩
  apply mem_css_out
  apply mem_rawCss he
  cases hb : structuralTags.contains (strLower e.node.tagName) with
  | false =>
    rw [processEl_tid hb] at hse
    rw [processEl_cs hb]
    exact List.mem_append_left _ (List.mem_append_left _ (List.mem_append_left _ hse))
  | true =>
    rw [processEl_structural hb] at hse
    simp [emptyContrib] at hse

/-- Witness for C10 on a fragment carrying a `data-cy` attribute, at the
concrete test-id selector it produces. -/
theorem claim10_testids_in_css_w :
    ("input[data-cy=" ++ dquoteS ++ "submit" ++ dquoteS ++ "]")
      ∈ (computeSelectors docClaim10).css :=
  claim10_testids_in_css docClaim10 (by decide)
    ("input[data-cy=" ++ dquoteS ++ "submit" ++ dquoteS ++ "]") (by decide)

/-- C8 counterexample: in the parsed fragment
`<div><label>First</label><label>Second</label><input></div>` the `input`'s
immediately preceding element sibling is the label with non-empty text
`Second`, yet the claimed following-sibling XPath is absent, because the
source consults the parent's first descendant label (`First`), whose next
element sibling is not the input. -/
theorem claim8_sibling_label_counterexample :
    divClaim8.childNodes[1]? = some (.elem "label" [] (.cons (.text "Second") .nil))
    ∧ jsTrim (Node.textContent (.elem "label" [] (.cons (.text "Second") .nil))) ≠ ""
    ∧ nextElemIdx divClaim8.childNodes 1 = some 2
    ∧ divClaim8.childNodes[2]? = some (.elem "input" [] .nil)
    ∧ (⟨.elem "input" [] .nil, 2,
        [(divClaim8, 0), (bodyN (.cons divClaim8 .nil), 1), (docClaim8, 0)]⟩ : EInst)
        ∈ (allInsts docClaim8).take 100
    ∧ ("//label[normalize-space(text())=" ++ squoteS ++ "Second" ++ squoteS
        ++ "]/following-sibling::input") ∉ (computeSelectors docClaim8).xpath := by decide

/-- C8 amended: the following-sibling label XPath is emitted for an
inspected form element exactly when the parent's first descendant label (the
`querySelector("label")` result) is a direct child with non-empty text whose
next element sibling is the element itself; in particular it is emitted
whenever that first label immediately precedes the element. -/
theorem claim8_sibling_label_amended (doc : Node) (e : EInst) (p : Node) (pIdx : Nat)
    (rest : List (Node × Nat)) (lab : EInst)
    (hmem : e ∈ (allInsts doc).take 100)
    (htag : formTags.contains (strLower e.node.tagName) = true)
    (hanc : e.anc = (p, pIdx) :: rest)
    (hlab : firstLabelInst p = some lab)
    (htxt : jsTrim lab.node.textContent ≠ "")
    (hdir : lab.anc = [])
    (hnext : nextElemIdx p.childNodes lab.selfIdx = some e.selfIdx) :
    ("//label[normalize-space(text())=" ++ escapeXpathText (normWs lab.node.textContent)
      ++ "]/following-sibling::" ++ strLower e.node.tagName)
      ∈ (computeSelectors doc).xpath := by
  have hform : strLower e.node.tagName ∈ formTags := by
    simpa using htag
  have hstruct : structuralTags.contains (strLower e.node.tagName) = false := by
    have hf := hform
    simp only [formTags, List.mem_cons, List.mem_singleton, List.not_mem_nil, or_false] at hf
    rcases hf with h | h | h <;> rw [h] <;> decide
  have htxtb : (jsTrim lab.node.textContent == "") = false := beq_eq_false_iff_ne.mpr htxt
  have hdirb : lab.anc.isEmpty = true := by rw [hdir]; rfl
  have hnextb : (nextElemIdx p.childNodes lab.selfIdx == some e.selfIdx) = true := by
    rw [hnext]
    exact beq_self_eq_true _
  apply mem_xpath_out
  apply mem_rawXpaths hmem
  rw [processEl_xp hstruct]
  apply List.mem_append_left
  apply List.mem_append_left
  apply List.mem_append_left
  apply List.mem_append_right
  rw [if_pos htag]
  apply List.mem_append_right
  unfold siblingLabelXpaths
  rw [hanc]
  simp only [hlab, htxtb, Bool.false_eq_true, if_false, hdirb, hnextb, Bool.and_self,
    if_true, List.mem_singleton]

/-- Witness for the amended C8 statement: a label with text `Email`
immediately followed by an `input` under body. -/
theorem claim8_sibling_label_amended_w :
    ("//label[normalize-space(text())=" ++ squoteS ++ "Email" ++ squoteS
      ++ "]/following-sibling::input") ∈ (computeSelectors docClaim8w).xpath :=
  claim8_sibling_label_amended docClaim8w
    ⟨.elem "input" [] .nil, 1, [(bodyClaim8w, 1), (docClaim8w, 0)]⟩
    bodyClaim8w 1 [(docClaim8w, 0)] ⟨labelClaim8w, 0, []⟩
    (by decide) (by decide) rfl (by decide) (by decide) rfl (by decide)

/-- C9: the traversal of a parsed fragment begins with the html, head and
body wrapper occurrences, and the 100-slot index guard is applied before the
structural-tag skip, so the wrappers consume three cap slots and at most 97
of the caller's own elements feed the accumulators. -/
theorem claim9_wrappers_consume_cap (ns : NodeList) :
    allInsts (parseFragment ns)
      = ⟨parseFragment ns, 0, []⟩ :: ⟨headN, 0, [(parseFragment ns, 0)]⟩ ::
        ⟨bodyN ns, 1, [(parseFragment ns, 0)]⟩ ::
        travF [(bodyN ns, 1), (parseFragment ns, 0)] 0 ns
    ∧ rawXpaths (parseFragment ns)
        = ((travF [(bodyN ns, 1), (parseFragment ns, 0)] 0 ns).take 97).flatMap
            (fun e => (processEl (parseFragment ns) e).xp)
    ∧ rawCss (parseFragment ns)
        = ((travF [(bodyN ns, 1), (parseFragment ns, 0)] 0 ns).take 97).flatMap
            (fun e => (processEl (parseFragment ns) e).cs)
    ∧ rawTestIds (parseFragment ns)
        = ((travF [(bodyN ns, 1), (parseFragment ns, 0)] 0 ns).take 97).flatMap
            (fun e => (processEl (parseFragment ns) e).tid) := by
  have hsh : allInsts (parseFragment ns)
      = ⟨parseFragment ns, 0, []⟩ :: ⟨headN, 0, [(parseFragment ns, 0)]⟩ ::
        ⟨bodyN ns, 1, [(parseFragment ns, 0)]⟩ ::
        travF [(bodyN ns, 1), (parseFragment ns, 0)] 0 ns := by
    show travN [] 0 (parseFragment ns) = _
    simp [travN, travF, parseFragment, headN, bodyN]
  have h1 : processEl (parseFragment ns) ⟨parseFragment ns, 0, []⟩ = emptyContrib := by
    apply processEl_structural
    simp only [parseFragment, Node.tagName]
    decide
  have h2 : processEl (parseFragment ns) ⟨headN, 0, [(parseFragment ns, 0)]⟩ = emptyContrib := by
    apply processEl_structural
    simp only [headN, Node.tagName]
    decide
  have h3 : processEl (parseFragment ns) ⟨bodyN ns, 1, [(parseFragment ns, 0)]⟩ = emptyContrib := by
    apply processEl_structural
    simp only [bodyN, Node.tagName]
    decide
  have htake : ∀ (a b c : EInst) (l : List EInst),
      (a :: b :: c :: l).take 100 = a :: b :: c :: l.take 97 := fun a b c l => rfl
  refine ⟨hsh, ?_, ?_, ?_⟩
  · rw [rawXpaths_take, hsh, htake, List.flatMap_cons, List.flatMap_cons, List.flatMap_cons,
      h1, h2, h3]
    simp [emptyContrib]
  · rw [rawCss_take, hsh, htake, List.flatMap_cons, List.flatMap_cons, List.flatMap_cons,
      h1, h2, h3]
    simp [emptyContrib]
  · rw [rawTestIds_take, hsh, htake, List.flatMap_cons, List.flatMap_cons, List.flatMap_cons,
      h1, h2, h3]
    simp [emptyContrib]
